import Mathlib

/-!
Verification development for a breadth-first web scraper
(`src/web_scraper.py`).  The crawl engine is embedded shallowly:

* URLs are lists of characters (`Str`), matching Python strings.
* `urlsplit`, `urlparse`, `urljoin`, `urlunsplit`, `urlunparse` transcribe
  the CPython 3.11 `urllib.parse` implementations (on bracket-free ASCII
  URLs, where those functions never raise).
* The network and the HTML parser are abstracted into a fetch oracle
  `Fetch : Str → Except Str Page`: `.error msg` models any exception
  raised inside `scrape_page`'s try-block (transport failure,
  `raise_for_status`, parse failure), `.ok page` models a parsed
  response.  A `Page` carries the HTTP status, the BeautifulSoup title
  slot (`soup.title` may be absent, and a present `<title>` tag's
  `.string` may itself be `None`), the document-order text nodes (tagged
  with whether they sit inside a `<script>`/`<style>` element, which the
  code decomposes before extraction), and the `href` values of anchors.
* `scrape_page`, `process_queue` and `start_scraping` transcribe the
  corresponding Python functions; Streamlit rendering, `time.sleep` and
  progress reporting have no effect on the crawl state and are dropped.
-/

abbrev Str := List Char

/-- Whitespace characters recognised by Python's `str.strip()` on ASCII
text. -/
def py_space_chars : List Char := [' ', '\t', '\n', '\r', '\x0b', '\x0c']

def is_py_space (c : Char) : Bool := py_space_chars.contains c

/-- Python `str.strip()` (ASCII): drop whitespace from both ends. -/
def py_strip (s : Str) : Str :=
  ((s.dropWhile is_py_space).reverse.dropWhile is_py_space).reverse

/-- Characters allowed in a URL scheme (`urllib.parse.scheme_chars`). -/
def scheme_chars : Str :=
  "abcdefghijklmnopqrstuvwxyzABCDEFGHIJKLMNOPQRSTUVWXYZ0123456789+-.".data

/-- Membership in `urllib.parse._WHATWG_C0_CONTROL_OR_SPACE`. -/
def c0_control_or_space (c : Char) : Bool := c.toNat ≤ 32

/-- The characters of `urllib.parse._UNSAFE_URL_BYTES_TO_REMOVE`. -/
def tab_cr_nl : List Char := ['\t', '\r', '\n']

/-- Schemes of `urllib.parse.uses_relative` (CPython 3.11). -/
def uses_relative : List Str :=
  List.map String.data ["", "ftp", "http", "gopher", "nntp", "imap",
    "wais", "file", "https", "shttp", "mms", "prospero", "rtsp", "rtsps",
    "rtspu", "sftp", "svn", "svn+ssh", "ws", "wss"]

/-- Schemes of `urllib.parse.uses_netloc` (CPython 3.11). -/
def uses_netloc : List Str :=
  List.map String.data ["", "ftp", "http", "gopher", "nntp", "telnet",
    "imap", "wais", "file", "mms", "https", "shttp", "snews", "prospero",
    "rtsp", "rtsps", "rtspu", "rsync", "svn", "svn+ssh", "sftp", "nfs",
    "git", "git+ssh", "ws", "wss"]

/-- Schemes of `urllib.parse.uses_params` (CPython 3.11). -/
def uses_params : List Str :=
  List.map String.data ["", "ftp", "hdl", "prospero", "http", "imap",
    "https", "shttp", "rtsp", "rtsps", "rtspu", "sip", "sips", "mms",
    "sftp", "tel"]

/-- Split a list at the first occurrence of `c`; `none` when `c` is
absent.  Models Python `s.split(c, 1)` / `s.find(c)`. -/
def split_first (c : Char) : Str → Option (Str × Str)
  | [] => none
  | x :: xs =>
    if x = c then some ([], xs)
    else (split_first c xs).map (fun p => (x :: p.1, p.2))

/-- ASCII lower-casing, matching `str.lower()` on scheme characters. -/
def ascii_lower (s : Str) : Str := s.map Char.toLower

/-- The result quintuple of `urllib.parse.urlsplit`. -/
structure SplitResult where
  scheme : Str
  netloc : Str
  path : Str
  query : Str
  fragment : Str
deriving Repr, DecidableEq

/-- The result sextuple of `urllib.parse.urlparse`. -/
structure ParseResult where
  scheme : Str
  netloc : Str
  path : Str
  params : Str
  query : Str
  fragment : Str
deriving Repr, DecidableEq

/-- Python `urllib.parse._splitnetloc(url, 2)` applied to the text after
the leading `//`: the netloc runs up to the first `/`, `?` or `#`. -/
def split_netloc (s : Str) : Str × Str :=
  let netloc := s.takeWhile (fun c => !(c = '/' || c = '?' || c = '#'))
  (netloc, s.drop netloc.length)

/-- Transcription of CPython 3.11 `urllib.parse.urlsplit` with
`allow_fragments=True` (thus always in this code base), restricted to
bracket-free ASCII URLs, on which it is total.  `dscheme` is the default
scheme argument. -/
def urlsplit (url0 : Str) (dscheme0 : Str) : SplitResult :=
  let url1 := (url0.dropWhile c0_control_or_space).filter
    (fun c => !(tab_cr_nl.contains c))
  let dscheme :=
    (((dscheme0.dropWhile c0_control_or_space).reverse.dropWhile
        c0_control_or_space).reverse).filter (fun c => !(tab_cr_nl.contains c))
  let schemeRest : Str × Str :=
    match split_first ':' url1 with
    | some (before, after) =>
      if !before.isEmpty &&
          (match before.head? with
           | some c => c.isAlpha
           | none => false) &&
          before.all (fun c => scheme_chars.contains c) then
        (ascii_lower before, after)
      else (dscheme, url1)
    | none => (dscheme, url1)
  let scheme := schemeRest.1
  let rest := schemeRest.2
  let netlocRest : Str × Str :=
    if rest.take 2 = ['/', '/'] then split_netloc (rest.drop 2)
    else ([], rest)
  let netloc := netlocRest.1
  let fragSplit : Str × Str :=
    match split_first '#' netlocRest.2 with
    | some (a, b) => (a, b)
    | none => (netlocRest.2, [])
  let querySplit : Str × Str :=
    match split_first '?' fragSplit.1 with
    | some (a, b) => (a, b)
    | none => (fragSplit.1, [])
  ⟨scheme, netloc, querySplit.1, querySplit.2, fragSplit.2⟩

/-- Python `urllib.parse._splitparams`: split the `;params` suffix of the
last path segment. -/
def splitparams (url : Str) : Str × Str :=
  if url.contains '/' then
    let suf := (url.reverse.takeWhile (fun c => c ≠ '/')).reverse
    let pre := url.take (url.length - suf.length)
    match split_first ';' suf with
    | some (a, b) => (pre ++ a, b)
    | none => (url, [])
  else
    match split_first ';' url with
    | some (a, b) => (a, b)
    | none => (url, [])

/-- Transcription of CPython 3.11 `urllib.parse.urlparse`. -/
def urlparse (url : Str) (dscheme : Str) : ParseResult :=
  let s := urlsplit url dscheme
  let pathParams : Str × Str :=
    if uses_params.contains s.scheme && s.path.contains ';' then
      splitparams s.path
    else (s.path, [])
  ⟨s.scheme, s.netloc, pathParams.1, pathParams.2, s.query, s.fragment⟩

/-- Transcription of CPython 3.11 `urllib.parse.urlunsplit`. -/
def urlunsplit (scheme netloc path query fragment : Str) : Str :=
  let url1 :=
    if !netloc.isEmpty ||
        (!scheme.isEmpty && uses_netloc.contains scheme &&
          path.take 2 ≠ ['/', '/']) then
      let u := if !path.isEmpty && path.take 1 ≠ ['/'] then '/' :: path
               else path
      '/' :: '/' :: (netloc ++ u)
    else path
  let url2 := if !scheme.isEmpty then scheme ++ ':' :: url1 else url1
  let url3 := if !query.isEmpty then url2 ++ '?' :: query else url2
  if !fragment.isEmpty then url3 ++ '#' :: fragment else url3

/-- Transcription of CPython 3.11 `urllib.parse.urlunparse`. -/
def urlunparse (r : ParseResult) : Str :=
  let path := if !r.params.isEmpty then r.path ++ ';' :: r.params
              else r.path
  urlunsplit r.scheme r.netloc path r.query r.fragment

/-- Python slice assignment `segments[1:-1] = filter(None, segments[1:-1])`:
keep the first and last entries, drop empty strings strictly inside. -/
def filter_inner (l : List Str) : List Str :=
  match l with
  | [] => []
  | hd :: tl =>
    match tl.getLast? with
    | none => [hd]
    | some last =>
      hd :: (tl.dropLast.filter (fun s => !s.isEmpty) ++ [last])

/-- The `..` / `.` segment-resolution loop of CPython 3.11 `urljoin`. -/
def resolve_segments (segments : List Str) : List Str :=
  segments.foldl
    (fun acc seg =>
      if seg = ['.', '.'] then acc.dropLast
      else if seg = ['.'] then acc
      else acc ++ [seg])
    []

/-- Transcription of CPython 3.11 `urllib.parse.urljoin` (restricted to
the total, bracket-free ASCII domain of `urlparse` above). -/
def urljoin (base url : Str) : Str :=
  if base.isEmpty then url
  else if url.isEmpty then base
  else
    let b := urlparse base []
    let u := urlparse url b.scheme
    if u.scheme ≠ b.scheme || !uses_relative.contains u.scheme then url
    else if uses_netloc.contains u.scheme && !u.netloc.isEmpty then
      urlunparse ⟨u.scheme, u.netloc, u.path, u.params, u.query, u.fragment⟩
    else
      let netloc := if uses_netloc.contains u.scheme then b.netloc
                    else u.netloc
      if u.path.isEmpty && u.params.isEmpty then
        let query := if u.query.isEmpty then b.query else u.query
        urlunparse ⟨u.scheme, netloc, b.path, b.params, query, u.fragment⟩
      else
        let base_parts0 := List.splitOn '/' b.path
        let base_parts :=
          if base_parts0.getLast? ≠ some [] then base_parts0.dropLast
          else base_parts0
        let segments :=
          if u.path.take 1 = ['/'] then List.splitOn '/' u.path
          else filter_inner (base_parts ++ List.splitOn '/' u.path)
        let resolved0 := resolve_segments segments
        let resolved :=
          if segments.getLast? = some ['.'] ||
              segments.getLast? = some ['.', '.'] then resolved0 ++ [[]]
          else resolved0
        let joined := List.intercalate ['/'] resolved
        let path := if joined.isEmpty then ['/'] else joined
        urlunparse ⟨u.scheme, netloc, path, u.params, u.query, u.fragment⟩

/-- `is_valid_url` from `src/web_scraper.py` (lines 30-36): the parsed
URL must have a non-empty scheme and a non-empty netloc. -/
def is_valid_url (url : Str) : Bool :=
  let result := urlparse url []
  !result.scheme.isEmpty && !result.netloc.isEmpty

/-- `get_domain` from `src/web_scraper.py` (lines 38-40). -/
def get_domain (url : Str) : Str := (urlparse url []).netloc

example : urljoin "https://example.com".data "mailto:test@example.com".data
    = "mailto:test@example.com".data := by decide
example : urljoin "https://example.com".data "javascript:void(0)".data
    = "javascript:void(0)".data := by decide
example : urljoin "https://e/x".data "https://e/x/".data
    = "https://e/x/".data := by decide
example : urljoin "https://e/x".data "https://e/x#f".data
    = "https://e/x#f".data := by decide
example : urljoin "https://e/x".data "/y".data = "https://e/y".data := by
  decide
example : urljoin "https://e/x".data "y".data = "https://e/y".data := by
  decide
example : is_valid_url "https://example.com".data = true := by decide
example : is_valid_url "mailto:test@example.com".data = false := by decide
example : is_valid_url "javascript:void(0)".data = false := by decide
example : is_valid_url "notaurl".data = false := by decide
example : is_valid_url "".data = false := by decide
example : get_domain "https://e/x/".data = "e".data := by decide

/-- A fetched-and-parsed response, as BeautifulSoup exposes it after the
script/style `decompose` loop (`src/web_scraper.py` lines 48-55):
`status` is `response.status_code`; `titleTag` models `soup.title`
(`none` when the document has no `<title>` element) and its payload
models `soup.title.string` (`none` when the tag has no single text
child, e.g. an empty `<title></title>`); `texts` are the document-order
text nodes, each tagged with whether it lies inside a `<script>` or
`<style>` element (those are decomposed before extraction); `hrefs` are
the `href` attribute values of `<a href=...>` elements in document
order. -/
structure Page where
  status : Nat
  titleTag : Option (Option Str)
  texts : List (Bool × Str)
  hrefs : List Str
deriving Repr, DecidableEq

/-- Fetch oracle: `.ok` is a parsed response, `.error` carries `str(e)`
for any exception raised inside `scrape_page`'s try-block. -/
abbrev Fetch := Str → Except Str Page

/-- The dictionary appended to `scraped_data` for each visited URL
(`src/web_scraper.py` lines 68-82).  `title` is an `Option` because the
Python value can be the parser's `None` (when `soup.title.string` is
`None`). -/
structure PageRecord where
  url : Str
  title : Option Str
  content : Str
  links : List Str
  status : Nat
deriving Repr, DecidableEq

/-- BeautifulSoup `soup.get_text(separator=' ', strip=True)` after the
script/style decompose loop: each remaining text node is stripped, empty
results are skipped, and the survivors are joined with single spaces
(`bs4.element.Tag._all_strings` with `strip=True`, then
`separator.join`). -/
def get_text (texts : List (Bool × Str)) : Str :=
  List.intercalate [' ']
    (((texts.filter (fun t => !t.1)).map (fun t => py_strip t.2)).filter
      (fun s => !s.isEmpty))

/-- `scrape_page` from `src/web_scraper.py` (lines 42-82). -/
def scrape_page (fetch : Fetch) (url : Str) : PageRecord :=
  match fetch url with
  | .ok page =>
    let title : Option Str :=
      match page.titleTag with
      | some s => s
      | none => some "No Title".data
    let text_content := (get_text page.texts).take 5000
    let links := page.hrefs.foldl
      (fun acc href =>
        let full_url := urljoin url href
        if is_valid_url full_url then acc ++ [full_url] else acc)
      []
    { url := url, title := title, content := text_content, links := links,
      status := page.status }
  | .error e =>
    { url := url, title := some "Error".data,
      content := "Error scraping page: ".data ++ e, links := [],
      status := 0 }

/-- The mutable session state of a run: `queue` is
`st.session_state.queue` (FIFO, head = next to pop), `visited` is
`st.session_state.visited_urls` (a Python set, modelled as its insertion
sequence, which the loop keeps duplicate-free), `scraped_data` is
`st.session_state.scraped_data`. -/
structure CrawlState where
  queue : List Str
  visited : List Str
  scraped_data : List PageRecord
deriving Repr, DecidableEq

/-- The link-enqueue filter of `process_queue` (`src/web_scraper.py`
lines 103-106), applied with `visited` already containing the current
URL: a link is appended to the queue when it is not in `visited` and is
either allowed externally or on the base domain. -/
def enqueue_links (include_external : Bool) (base_domain : Str)
    (visited : List Str) (links : List Str) : List Str :=
  links.filter (fun link =>
    !visited.contains link &&
      (include_external || get_domain link == base_domain))

/-- `process_queue` from `src/web_scraper.py` (lines 84-116): pop the
head of the queue while the queue is non-empty and fewer than
`max_pages` URLs are visited; skip already-visited URLs, otherwise mark
visited, scrape, append the record, and enqueue in-scope unvisited
links.  Besides the final state, the embedding returns the list of every
URL pushed onto the queue during the run (progress display and
`time.sleep` do not affect the state and are dropped). -/
def process_queue (fetch : Fetch) (max_pages : Nat)
    (include_external : Bool) (base_domain : Str)
    (st : CrawlState) : CrawlState × List Str :=
  match hq : st.queue with
  | [] => (st, [])
  | current_url :: rest =>
    if hv : st.visited.length < max_pages then
      if st.visited.contains current_url then
        process_queue fetch max_pages include_external base_domain
          { st with queue := rest }
      else
        let visited' := st.visited ++ [current_url]
        let page_data := scrape_page fetch current_url
        let new_links := enqueue_links include_external base_domain
          visited' page_data.links
        let r := process_queue fetch max_pages include_external base_domain
          { queue := rest ++ new_links, visited := visited',
            scraped_data := st.scraped_data ++ [page_data] }
        (r.1, new_links ++ r.2)
    else (st, [])
  termination_by (max_pages - st.visited.length, st.queue.length)
  decreasing_by
  · apply Prod.Lex.right
    simp [hq]
  · apply Prod.Lex.left
    simp only [List.length_append, List.length_cons, List.length_nil]
    omega

/-- Outcome of pressing the start button: the error message shown (if
any), the session state afterwards, and every URL ever pushed onto the
queue (the seed first). -/
structure RunOutcome where
  error_message : Option Str
  state : CrawlState
  pushed : List Str
deriving Repr, DecidableEq

/-- The module-level start handler of `src/web_scraper.py` (lines
119-133): an empty seed or a seed failing `is_valid_url` shows an error
and leaves the session state untouched; otherwise the state is reset,
the seed is queued, and `process_queue` runs against the seed's
domain. -/
def start_scraping (fetch : Fetch) (base_url : Str) (max_pages : Nat)
    (include_external : Bool) (st : CrawlState) : RunOutcome :=
  if base_url.isEmpty then
    { error_message := some "Please enter a valid URL".data, state := st,
      pushed := [] }
  else if !is_valid_url base_url then
    { error_message :=
        some "Please enter a valid URL including http:// or https://".data,
      state := st, pushed := [] }
  else
    let base_domain := get_domain base_url
    let r := process_queue fetch max_pages include_external base_domain
      { queue := [base_url], visited := [], scraped_data := [] }
    { error_message := none, state := r.1, pushed := base_url :: r.2 }

/-- Unfolding `process_queue` on an empty queue: the loop exits at once. -/
theorem process_queue_nil (f : Fetch) (mp : Nat) (ie : Bool) (bd : Str)
    (v : List Str) (d : List PageRecord) :
    process_queue f mp ie bd ⟨[], v, d⟩ = (⟨[], v, d⟩, []) := by
  rw [process_queue]

/-- Unfolding `process_queue` when the visited budget is exhausted: the
loop exits with the queue untouched. -/
theorem process_queue_stop (f : Fetch) (mp : Nat) (ie : Bool) (bd : Str)
    (u : Str) (q v : List Str) (d : List PageRecord)
    (h : ¬ v.length < mp) :
    process_queue f mp ie bd ⟨u :: q, v, d⟩ = (⟨u :: q, v, d⟩, []) := by
  rw [process_queue]
  simp [h]

/-- Unfolding `process_queue` on an already-visited head: it is dropped
without a record. -/
theorem process_queue_skip (f : Fetch) (mp : Nat) (ie : Bool) (bd : Str)
    (u : Str) (q v : List Str) (d : List PageRecord)
    (h1 : v.length < mp) (h2 : u ∈ v) :
    process_queue f mp ie bd ⟨u :: q, v, d⟩ =
      process_queue f mp ie bd ⟨q, v, d⟩ := by
  rw [process_queue]
  simp [h1, h2]

/-- Unfolding `process_queue` on a fresh head: visit, record, enqueue. -/
theorem process_queue_visit (f : Fetch) (mp : Nat) (ie : Bool) (bd : Str)
    (u : Str) (q v : List Str) (d : List PageRecord)
    (h1 : v.length < mp) (h2 : u ∉ v) :
    process_queue f mp ie bd ⟨u :: q, v, d⟩ =
      ((process_queue f mp ie bd
          ⟨q ++ enqueue_links ie bd (v ++ [u]) (scrape_page f u).links,
           v ++ [u], d ++ [scrape_page f u]⟩).1,
       enqueue_links ie bd (v ++ [u]) (scrape_page f u).links ++
         (process_queue f mp ie bd
           ⟨q ++ enqueue_links ie bd (v ++ [u]) (scrape_page f u).links,
            v ++ [u], d ++ [scrape_page f u]⟩).2) := by
  rw [process_queue]
  simp [h1, h2]

/-- Fuel-indexed twin of `process_queue`, used purely as an evaluation
device: it is structurally recursive, so the kernel can run it on
concrete inputs; `none` means the fuel ran out. -/
def process_queue_fuel (f : Fetch) (mp : Nat) (ie : Bool) (bd : Str) :
    Nat → CrawlState → Option (CrawlState × List Str)
  | 0, _ => none
  | fuel + 1, st =>
    match st.queue with
    | [] => some (st, [])
    | current_url :: rest =>
      if st.visited.length < mp then
        if st.visited.contains current_url then
          process_queue_fuel f mp ie bd fuel
            { st with queue := rest }
        else
          let visited' := st.visited ++ [current_url]
          let page_data := scrape_page f current_url
          let new_links := enqueue_links ie bd visited' page_data.links
          match process_queue_fuel f mp ie bd fuel
              { queue := rest ++ new_links, visited := visited',
                scraped_data := st.scraped_data ++ [page_data] } with
          | none => none
          | some r => some (r.1, new_links ++ r.2)
      else some (st, [])

/-- When the fuel-indexed twin completes, it computes exactly
`process_queue`. -/
theorem process_queue_fuel_sound (f : Fetch) (mp : Nat) (ie : Bool)
    (bd : Str) :
    ∀ (fuel : Nat) (st : CrawlState) (r : CrawlState × List Str),
      process_queue_fuel f mp ie bd fuel st = some r →
      process_queue f mp ie bd st = r := by
  intro fuel
  induction fuel with
  | zero => intro st r h; simp [process_queue_fuel] at h
  | succ n ih =>
    intro st r h
    obtain ⟨q, v, d⟩ := st
    match hq : q with
    | [] =>
      subst hq
      simp [process_queue_fuel] at h
      rw [process_queue_nil, ← h]
    | u :: rest =>
      subst hq
      by_cases h1 : v.length < mp
      · by_cases h2 : u ∈ v
        · rw [process_queue_skip f mp ie bd u rest v d h1 h2]
          apply ih
          simpa [process_queue_fuel, h1, h2] using h
        · rw [process_queue_visit f mp ie bd u rest v d h1 h2]
          simp only [process_queue_fuel, if_pos h1] at h
          rw [if_neg (by simpa using h2)] at h
          cases hrec : process_queue_fuel f mp ie bd n
              ⟨rest ++ enqueue_links ie bd (v ++ [u]) (scrape_page f u).links,
               v ++ [u], d ++ [scrape_page f u]⟩ with
          | none => rw [hrec] at h; simp at h
          | some r' =>
            rw [hrec] at h
            simp only [Option.some.injEq] at h
            rw [ih _ _ hrec]
            exact h
      · rw [process_queue_stop f mp ie bd u rest v d h1]
        simp [process_queue_fuel, h1] at h
        exact h.symm ▸ rfl

/-- Evaluation bridge: a result computed through the fuel-indexed twin
transfers along any projection to `process_queue` itself. -/
theorem process_queue_fuel_sound_map {β : Type} (f : Fetch) (mp : Nat)
    (ie : Bool) (bd : Str) (fuel : Nat) (st : CrawlState)
    (g : CrawlState × List Str → β) (y : β)
    (h : (process_queue_fuel f mp ie bd fuel st).map g = some y) :
    g (process_queue f mp ie bd st) = y := by
  cases hf : process_queue_fuel f mp ie bd fuel st with
  | none => rw [hf] at h; exact Option.noConfusion h
  | some r =>
    rw [hf] at h
    rw [process_queue_fuel_sound f mp ie bd fuel st r hf]
    exact Option.some.inj h

/-- Every `PageRecord` carries the URL it was scraped from. -/
theorem scrape_page_url (f : Fetch) (u : Str) :
    (scrape_page f u).url = u := by
  cases h : f u <;> simp [scrape_page, h]

theorem process_queue_invariant (f : Fetch) (mp : Nat) (ie : Bool)
    (bd : Str) :
    ∀ st : CrawlState,
      st.scraped_data.map PageRecord.url = st.visited →
      st.visited.Nodup →
      ((process_queue f mp ie bd st).1.scraped_data.map PageRecord.url
          = (process_queue f mp ie bd st).1.visited) ∧
      (process_queue f mp ie bd st).1.visited.Nodup ∧
      (st.visited.length ≤ mp →
        (process_queue f mp ie bd st).1.visited.length ≤ mp) ∧
      ((process_queue f mp ie bd st).1.queue ≠ [] →
        mp ≤ (process_queue f mp ie bd st).1.visited.length) := by
  intro st
  induction st using process_queue.induct f mp ie bd with
  | case1 x hq =>
    intro hmap hnd
    obtain ⟨q, v, d⟩ := x
    subst hq
    rw [process_queue_nil]
    exact ⟨hmap, hnd, fun h => h, fun hne => absurd rfl hne⟩
  | case2 x u rest hq h1 h2 ih =>
    intro hmap hnd
    obtain ⟨q, v, d⟩ := x
    subst hq
    rw [process_queue_skip f mp ie bd u rest v d h1 (by simpa using h2)]
    exact ih hmap hnd
  | case3 x u rest hq h1 h2 v' pd nl ih =>
    intro hmap hnd
    obtain ⟨q, v, d⟩ := x
    subst hq
    have h2' : u ∉ v := by simpa using h2
    rw [process_queue_visit f mp ie bd u rest v d h1 h2']
    have hmap' : (d ++ [scrape_page f u]).map PageRecord.url = v ++ [u] := by
      simp [hmap, scrape_page_url]
    have hnd' : (v ++ [u]).Nodup := by
      simp [List.nodup_append, hnd, h2']
    have hres := ih hmap' hnd'
    have h1' : v.length < mp := h1
    refine ⟨hres.1, hres.2.1, ?_, hres.2.2.2⟩
    intro _
    apply hres.2.2.1
    show (v ++ [u]).length ≤ mp
    simp only [List.length_append, List.length_cons, List.length_nil]
    omega
  | case4 x u rest hq h1 =>
    intro hmap hnd
    obtain ⟨q, v, d⟩ := x
    subst hq
    rw [process_queue_stop f mp ie bd u rest v d h1]
    exact ⟨hmap, hnd, fun h => h, fun _ => Nat.le_of_not_lt h1⟩

theorem enqueue_links_domain (bd : Str) (visited links : List Str) :
    ∀ u ∈ enqueue_links false bd visited links, get_domain u = bd := by
  intro u hu
  simp only [enqueue_links, List.mem_filter, Bool.false_or,
    Bool.and_eq_true, beq_iff_eq] at hu
  exact hu.2.2

theorem process_queue_pushed_domain (f : Fetch) (mp : Nat) (bd : Str) :
    ∀ st : CrawlState, ∀ u ∈ (process_queue f mp false bd st).2,
      get_domain u = bd := by
  intro st
  induction st using process_queue.induct f mp false bd with
  | case1 x hq =>
    obtain ⟨q, v, d⟩ := x
    subst hq
    rw [process_queue_nil]
    intro u hu
    simp at hu
  | case2 x u rest hq h1 h2 ih =>
    obtain ⟨q, v, d⟩ := x
    subst hq
    rw [process_queue_skip f mp false bd u rest v d h1 (by simpa using h2)]
    exact ih
  | case3 x u rest hq h1 h2 v' pd nl ih =>
    obtain ⟨q, v, d⟩ := x
    subst hq
    rw [process_queue_visit f mp false bd u rest v d h1 (by simpa using h2)]
    intro w hw
    rcases List.mem_append.mp hw with hmem | hmem
    · exact enqueue_links_domain bd _ _ w hmem
    · exact ih w hmem
  | case4 x u rest hq h1 =>
    obtain ⟨q, v, d⟩ := x
    subst hq
    rw [process_queue_stop f mp false bd u rest v d h1]
    intro u hu
    simp at hu

theorem links_foldl_eq (urlb : Str) :
    ∀ (hrefs : List Str) (acc : List Str),
      hrefs.foldl (fun acc href =>
        let full_url := urljoin urlb href
        if is_valid_url full_url then acc ++ [full_url] else acc) acc
      = acc ++ (hrefs.map (urljoin urlb)).filter is_valid_url := by
  intro hrefs
  induction hrefs with
  | nil => intro acc; simp
  | cons h t ih =>
    intro acc
    simp only [List.foldl_cons, List.map_cons, List.filter_cons]
    by_cases hv : is_valid_url (urljoin urlb h) = true
    · simp only [hv, if_true, ih, List.append_assoc, List.singleton_append]
    · simp only [Bool.not_eq_true] at hv
      simp only [hv, if_false, ih, Bool.false_eq_true]

theorem scrape_page_links (f : Fetch) (u : Str) (page : Page)
    (hf : f u = .ok page) :
    (scrape_page f u).links
      = (page.hrefs.map (urljoin u)).filter is_valid_url := by
  simp [scrape_page, hf, links_foldl_eq u page.hrefs []]

theorem scrape_page_content (f : Fetch) (u : Str) (page : Page)
    (hf : f u = .ok page) :
    (scrape_page f u).content = (get_text page.texts).take 5000 := by
  simp [scrape_page, hf]

theorem scrape_page_status (f : Fetch) (u : Str) (page : Page)
    (hf : f u = .ok page) :
    (scrape_page f u).status = page.status := by
  simp [scrape_page, hf]

/-- Absence of whitespace runs: no two adjacent whitespace characters. -/
def ws_collapsed (s : Str) : Prop :=
  s.Chain' (fun a b => ¬(is_py_space a = true ∧ is_py_space b = true))

/-- Executable check for `ws_collapsed`. -/
def ws_collapsed_b : Str → Bool
  | [] => true
  | [_] => true
  | a :: b :: rest =>
    !(is_py_space a && is_py_space b) && ws_collapsed_b (b :: rest)

theorem ws_collapsed_iff :
    ∀ s : Str, ws_collapsed s ↔ ws_collapsed_b s = true
  | [] => by simp [ws_collapsed, ws_collapsed_b]
  | [a] => by simp [ws_collapsed, ws_collapsed_b]
  | a :: b :: rest => by
    unfold ws_collapsed ws_collapsed_b
    rw [List.chain'_cons]
    have ih := ws_collapsed_iff (b :: rest)
    unfold ws_collapsed at ih
    rw [ih]
    simp only [Bool.and_eq_true, Bool.not_eq_eq_eq_not, Bool.not_true,
      Bool.and_eq_false_iff]
    constructor
    · intro hx
      refine ⟨?_, hx.2⟩
      by_cases ha : is_py_space a = true
      · by_cases hb : is_py_space b = true
        · exact absurd ⟨ha, hb⟩ hx.1
        · exact Or.inr (by simpa using hb)
      · exact Or.inl (by simpa using ha)
    · intro hx
      refine ⟨?_, hx.2⟩
      intro hcon
      rcases hx.1 with hh | hh
      · rw [hcon.1] at hh
        exact Bool.noConfusion hh
      · rw [hcon.2] at hh
        exact Bool.noConfusion hh

instance (s : Str) : Decidable (ws_collapsed s) :=
  decidable_of_decidable_of_iff (ws_collapsed_iff s).symm

theorem intercalate_cons_cons (s a b : Str) (t : List Str) :
    List.intercalate s (a :: b :: t)
      = a ++ s ++ List.intercalate s (b :: t) := by
  simp [List.intercalate, List.intersperse]

theorem py_strip_head (s : Str) :
    ∀ c ∈ (py_strip s).head?, is_py_space c = false := by
  intro c hc
  unfold py_strip at hc
  rw [List.head?_reverse, Option.mem_def] at hc
  obtain ⟨t, ht⟩ :=
    @List.dropWhile_suffix _ ((s.dropWhile is_py_space).reverse) is_py_space
  have hY : ((s.dropWhile is_py_space).reverse).getLast? = some c := by
    rw [← ht, List.getLast?_append, hc]
    rfl
  rw [List.getLast?_reverse] at hY
  have hh := List.head?_dropWhile_not is_py_space s
  rw [hY] at hh
  exact hh

theorem py_strip_last (s : Str) :
    ∀ c ∈ (py_strip s).getLast?, is_py_space c = false := by
  intro c hc
  unfold py_strip at hc
  rw [List.getLast?_reverse, Option.mem_def] at hc
  have hh :=
    List.head?_dropWhile_not is_py_space ((s.dropWhile is_py_space).reverse)
  rw [hc] at hh
  exact hh

theorem intercalate_head (q : Str) (t : List Str) (hq : q ≠ []) :
    (List.intercalate [' '] (q :: t)).head? = q.head? := by
  cases t with
  | nil => simp [List.intercalate]
  | cons r t' =>
    rw [intercalate_cons_cons, List.append_assoc, List.head?_append]
    cases q with
    | nil => exact absurd rfl hq
    | cons a q' => rfl

theorem ws_collapsed_intercalate :
    ∀ ps : List Str,
      (∀ p ∈ ps, p ≠ [] ∧ ws_collapsed p ∧
        (∀ c ∈ p.head?, is_py_space c = false) ∧
        (∀ c ∈ p.getLast?, is_py_space c = false)) →
      ws_collapsed (List.intercalate [' '] ps) := by
  intro ps
  induction ps with
  | nil => intro _; simp [List.intercalate, ws_collapsed]
  | cons p t ih =>
    intro h
    cases t with
    | nil => simpa [List.intercalate] using (h p (by simp)).2.1
    | cons q t' =>
      rw [intercalate_cons_cons, List.append_assoc]
      have hp := h p (by simp)
      have hq := h q (by simp)
      have hrest := ih (fun r hr => h r (by simp [hr]))
      unfold ws_collapsed
      rw [List.chain'_append]
      refine ⟨hp.2.1, ?_, ?_⟩
      · rw [List.singleton_append, List.chain'_cons']
        refine ⟨?_, hrest⟩
        intro y hy
        rw [intercalate_head q t' hq.1] at hy
        have := hq.2.2.1 y hy
        intro hcon
        rw [this] at hcon
        exact Bool.false_ne_true hcon.2
      · intro x hx y hy
        rw [List.singleton_append, List.head?_cons, Option.mem_def,
          Option.some.injEq] at hy
        have := hp.2.2.2 x hx
        intro hcon
        rw [this] at hcon
        exact Bool.false_ne_true hcon.1

theorem ws_collapsed_take (s : Str) (n : Nat) (h : ws_collapsed s) :
    ws_collapsed (s.take n) := by
  have hp := List.take_prefix n s
  exact List.Chain'.prefix h hp

theorem get_text_collapsed (texts : List (Bool × Str))
    (h : ∀ t ∈ texts, t.1 = false → ws_collapsed (py_strip t.2)) :
    ws_collapsed (get_text texts) := by
  unfold get_text
  apply ws_collapsed_intercalate
  intro p hp
  simp only [List.mem_filter, List.mem_map] at hp
  obtain ⟨⟨t, ht, hpt⟩, hne⟩ := hp
  refine ⟨by simpa using hne, ?_, ?_, ?_⟩
  · rw [← hpt]
    exact h t ht.1 (by simpa using ht.2)
  · rw [← hpt]; exact py_strip_head _
  · rw [← hpt]; exact py_strip_last _

/-! Concrete fetch oracles used as test inputs for the claims. -/

/-- A fetch oracle on which every request raises. -/
def fetch_err : Fetch := fun _ => .error "connection refused".data

/-- A page with a title, no text and no anchors. -/
def page_plain : Page :=
  { status := 200, titleTag := some (some "T".data), texts := [],
    hrefs := [] }

/-- Seed page linking to a trailing-slash variant and a fragment variant
of its own URL. -/
def page_slash_frag : Page :=
  { status := 200, titleTag := some (some "T".data), texts := [],
    hrefs := ["https://e/x/".data, "https://e/x#f".data] }

/-- Oracle for the textual-identity scenario: the seed links to
trailing-slash and fragment variants of itself; all other URLs are plain
pages. -/
def fetch_c10 : Fetch := fun u =>
  if u = "https://e/x".data then .ok page_slash_frag else .ok page_plain

/-- A page whose only anchors are a `mailto:` and a `javascript:` href. -/
def page_mailto : Page :=
  { status := 200, titleTag := some (some "Links".data), texts := [],
    hrefs := ["mailto:test@example.com".data, "javascript:void(0)".data] }

def fetch_mailto : Fetch := fun _ => .ok page_mailto

/-- A page whose single visible text node contains an internal run of
two spaces. -/
def page_ws : Page :=
  { status := 200, titleTag := none, texts := [(false, "a  b".data)],
    hrefs := [] }

def fetch_ws : Fetch := fun _ => .ok page_ws

/-- A page whose `<title>` element exists but is empty, so that
`soup.title` is truthy while `soup.title.string` is `None`. -/
def page_empty_title : Page :=
  { status := 200, titleTag := some none, texts := [], hrefs := [] }

def fetch_empty_title : Fetch := fun _ => .ok page_empty_title

/-- A well-behaved page: a title, one visible text node (internally
collapsed), one script text node. -/
def page_sample : Page :=
  { status := 200, titleTag := some (some "Sample".data),
    texts := [(false, " hello world ".data), (true, "var x = 1;".data)],
    hrefs := [] }

def fetch_sample : Fetch := fun _ => .ok page_sample

/-- C1: at every iteration boundary of the crawl loop (any state whose
records and visited set agree, as holds from the fresh start onwards),
the number of `PageRecord`s equals the size of the visited set, the
visited count never exceeds `max_pages`, and when the loop stops with a
non-empty frontier the visited count has reached exactly `max_pages`. -/
theorem crawl_budget_invariant (f : Fetch) (mp : Nat) (ie : Bool)
    (bd : Str) (st : CrawlState)
    (hlen : st.scraped_data.map PageRecord.url = st.visited)
    (hnd : st.visited.Nodup) (hbound : st.visited.length ≤ mp) :
    ((process_queue f mp ie bd st).1.scraped_data.length
        = (process_queue f mp ie bd st).1.visited.length) ∧
    (process_queue f mp ie bd st).1.visited.length ≤ mp ∧
    ((process_queue f mp ie bd st).1.queue = [] ∨
      (process_queue f mp ie bd st).1.visited.length = mp) := by
  have h := process_queue_invariant f mp ie bd st hlen hnd
  refine ⟨?_, h.2.2.1 hbound, ?_⟩
  · rw [← h.1, List.length_map]
  · by_cases hq : (process_queue f mp ie bd st).1.queue = []
    · exact Or.inl hq
    · exact Or.inr (Nat.le_antisymm (h.2.2.1 hbound) (h.2.2.2 hq))

/-- Witness for C1: a concrete one-page crawl satisfying the invariant
hypotheses. -/
theorem crawl_budget_invariant_witness :
    ((process_queue fetch_err 1 false "example.com".data
        ⟨["https://example.com".data], [], []⟩).1.scraped_data.length
      = (process_queue fetch_err 1 false "example.com".data
        ⟨["https://example.com".data], [], []⟩).1.visited.length) ∧
    (process_queue fetch_err 1 false "example.com".data
        ⟨["https://example.com".data], [], []⟩).1.visited.length ≤ 1 ∧
    ((process_queue fetch_err 1 false "example.com".data
        ⟨["https://example.com".data], [], []⟩).1.queue = [] ∨
      (process_queue fetch_err 1 false "example.com".data
        ⟨["https://example.com".data], [], []⟩).1.visited.length = 1) :=
  crawl_budget_invariant fetch_err 1 false "example.com".data
    ⟨["https://example.com".data], [], []⟩ rfl List.nodup_nil (by decide)

/-- C2: in any run from a fresh state no URL enters the visited set
twice, no two records share a `url` (the record URLs are exactly the
visited set, without duplicates), and a dequeued URL already in the
visited set is skipped without producing a record. -/
theorem crawl_unique_visits (f : Fetch) (mp : Nat) (ie : Bool) (bd : Str)
    (q0 : List Str) (u : Str) (q v : List Str) (d : List PageRecord)
    (h1 : v.length < mp) (h2 : u ∈ v) :
    (process_queue f mp ie bd ⟨q0, [], []⟩).1.visited.Nodup ∧
    ((process_queue f mp ie bd ⟨q0, [], []⟩).1.scraped_data.map
        PageRecord.url).Nodup ∧
    ((process_queue f mp ie bd ⟨q0, [], []⟩).1.scraped_data.map
        PageRecord.url
      = (process_queue f mp ie bd ⟨q0, [], []⟩).1.visited) ∧
    process_queue f mp ie bd ⟨u :: q, v, d⟩
      = process_queue f mp ie bd ⟨q, v, d⟩ := by
  have h := process_queue_invariant f mp ie bd ⟨q0, [], []⟩ rfl
    List.nodup_nil
  exact ⟨h.2.1, h.1 ▸ h.2.1, h.1,
    process_queue_skip f mp ie bd u q v d h1 h2⟩

/-- Witness for C2: a concrete crawl and a concrete skipped dequeue. -/
theorem crawl_unique_visits_witness :
    (process_queue fetch_err 2 false "e".data
        ⟨["https://e/x".data], [], []⟩).1.visited.Nodup ∧
    ((process_queue fetch_err 2 false "e".data
        ⟨["https://e/x".data], [], []⟩).1.scraped_data.map
        PageRecord.url).Nodup ∧
    ((process_queue fetch_err 2 false "e".data
        ⟨["https://e/x".data], [], []⟩).1.scraped_data.map
        PageRecord.url
      = (process_queue fetch_err 2 false "e".data
        ⟨["https://e/x".data], [], []⟩).1.visited) ∧
    process_queue fetch_err 2 false "e".data
        ⟨["https://e/y".data] ++ [], ["https://e/y".data], []⟩
      = process_queue fetch_err 2 false "e".data
        ⟨[], ["https://e/y".data], []⟩ :=
  crawl_unique_visits fetch_err 2 false "e".data ["https://e/x".data]
    "https://e/y".data [] ["https://e/y".data] [] (by decide) (by decide)

/-- C4: with `include_external` off, every URL ever pushed onto the
frontier (the seed included) has a `get_domain` host string-equal to the
seed's host; with `include_external` on, the enqueue filter keeps every
link not yet visited, with no host restriction. -/
theorem crawl_domain_scope (f : Fetch) (seed : Str) (mp : Nat)
    (st : CrawlState) (bd' : Str) (visited0 links0 : List Str)
    (hval : is_valid_url seed = true) :
    ((start_scraping f seed mp false st).pushed.all
        (fun u => get_domain u == get_domain seed)) = true ∧
    enqueue_links true bd' visited0 links0
      = links0.filter (fun l => !visited0.contains l) := by
  constructor
  · have hne : seed.isEmpty = false := by
      cases seed with
      | nil => exact absurd hval (by decide)
      | cons a s => rfl
    simp only [start_scraping, hne, Bool.false_eq_true, if_false, hval,
      Bool.not_true, List.all_cons, beq_self_eq_true, Bool.true_and]
    rw [List.all_eq_true]
    intro u hu
    rw [beq_iff_eq]
    exact process_queue_pushed_domain f mp (get_domain seed) _ u hu
  · simp [enqueue_links]

/-- Witness for C4: a concrete valid seed. -/
theorem crawl_domain_scope_witness :
    ((start_scraping fetch_err "https://example.com".data 1 false
        ⟨[], [], []⟩).pushed.all
      (fun u => get_domain u == get_domain "https://example.com".data))
        = true ∧
    enqueue_links true "other".data ["https://a/b".data]
        ["https://a/b".data, "https://z/w".data]
      = ["https://a/b".data, "https://z/w".data].filter
          (fun l => !(["https://a/b".data] : List Str).contains l) :=
  crawl_domain_scope fetch_err "https://example.com".data 1 ⟨[], [], []⟩
    "other".data ["https://a/b".data]
    ["https://a/b".data, "https://z/w".data] (by decide)

/-- C5: every record produced from a successful fetch has content of at
most 5000 characters. -/
theorem content_length_bounded (f : Fetch) (u : Str) (page : Page)
    (hf : f u = .ok page) :
    (scrape_page f u).content.length ≤ 5000 := by
  rw [scrape_page_content f u page hf, List.length_take]
  exact Nat.min_le_left _ _

/-- Witness for C5: a concrete successful fetch. -/
theorem content_length_bounded_witness :
    (scrape_page fetch_sample "https://example.com".data).content.length
      ≤ 5000 :=
  content_length_bounded fetch_sample "https://example.com".data
    page_sample rfl

/-- C3: a failing fetch (or parse) yields a degraded record with title
`"Error"`, the failure description as content, no links and status 0;
and a run with a failing seed and `max_pages = 1` completes normally
(no error surfaced, queue drained) with exactly that one record. -/
theorem failing_fetch_degraded :
    (∀ (f : Fetch) (u e : Str), f u = .error e →
      scrape_page f u
        = { url := u, title := some "Error".data,
            content := "Error scraping page: ".data ++ e, links := [],
            status := 0 }) ∧
    (∀ (f : Fetch) (seed e : Str) (ie : Bool) (st : CrawlState),
      is_valid_url seed = true → f seed = .error e →
      (start_scraping f seed 1 ie st).error_message = none ∧
      (start_scraping f seed 1 ie st).state.scraped_data
        = [{ url := seed, title := some "Error".data,
             content := "Error scraping page: ".data ++ e, links := [],
             status := 0 }] ∧
      (start_scraping f seed 1 ie st).state.queue = []) := by
  have hA : ∀ (f : Fetch) (u e : Str), f u = .error e →
      scrape_page f u
        = { url := u, title := some "Error".data,
            content := "Error scraping page: ".data ++ e, links := [],
            status := 0 } := by
    intro f u e hf
    simp [scrape_page, hf]
  refine ⟨hA, ?_⟩
  intro f seed e ie st hval hf
  have hne : seed.isEmpty = false := by
    cases seed with
    | nil => exact absurd hval (by decide)
    | cons a s => rfl
  have hrun : process_queue f 1 ie (get_domain seed) ⟨[seed], [], []⟩
      = (⟨[], [seed],
          [{ url := seed, title := some "Error".data,
             content := "Error scraping page: ".data ++ e, links := [],
             status := 0 }]⟩, []) := by
    rw [process_queue_visit f 1 ie (get_domain seed) seed [] [] []
      (by decide) (List.not_mem_nil seed)]
    rw [hA f seed e hf]
    simp [enqueue_links, process_queue_nil]
  simp [start_scraping, hne, hval, hrun]

/-- Witness for C3: a concrete always-failing oracle with a valid seed
and `max_pages = 1`. -/
theorem failing_fetch_degraded_witness :
    (scrape_page fetch_err "https://example.com".data
      = { url := "https://example.com".data, title := some "Error".data,
          content := "Error scraping page: ".data
            ++ "connection refused".data,
          links := [], status := 0 }) ∧
    ((start_scraping fetch_err "https://example.com".data 1 false
        ⟨[], [], []⟩).error_message = none ∧
      (start_scraping fetch_err "https://example.com".data 1 false
        ⟨[], [], []⟩).state.scraped_data
        = [{ url := "https://example.com".data,
             title := some "Error".data,
             content := "Error scraping page: ".data
               ++ "connection refused".data,
             links := [], status := 0 }] ∧
      (start_scraping fetch_err "https://example.com".data 1 false
        ⟨[], [], []⟩).state.queue = []) :=
  ⟨failing_fetch_degraded.1 fetch_err "https://example.com".data
      "connection refused".data rfl,
    failing_fetch_degraded.2 fetch_err "https://example.com".data
      "connection refused".data false ⟨[], [], []⟩ (by decide) rfl⟩

/-- C9: an empty seed, or a seed without scheme or host, shows an error,
starts no run, produces no record and leaves the session state exactly
as it was. -/
theorem invalid_seed_no_run (f : Fetch) (mp : Nat) (ie : Bool)
    (st : CrawlState) (seed : Str)
    (h : seed = [] ∨ is_valid_url seed = false) :
    (start_scraping f seed mp ie st).error_message.isSome = true ∧
    (start_scraping f seed mp ie st).state = st ∧
    (start_scraping f seed mp ie st).pushed = [] := by
  by_cases hs : seed.isEmpty = true
  · simp [start_scraping, hs]
  · rcases h with h | h
    · subst h
      simp at hs
    · simp only [Bool.not_eq_true] at hs
      simp [start_scraping, hs, h]

/-- Witness for C9: a concrete schemeless seed. -/
theorem invalid_seed_no_run_witness :
    (start_scraping fetch_err "notaurl".data 5 false
        ⟨[], [], []⟩).error_message.isSome = true ∧
    (start_scraping fetch_err "notaurl".data 5 false
        ⟨[], [], []⟩).state = ⟨[], [], []⟩ ∧
    (start_scraping fetch_err "notaurl".data 5 false
        ⟨[], [], []⟩).pushed = [] :=
  invalid_seed_no_run fetch_err 5 false ⟨[], [], []⟩ "notaurl".data
    (by decide)

/-- Counterexample for C6: a page whose single visible text node is
`"a  b"` produces content `"a  b"` unchanged — the internal run of two
spaces is not collapsed, contradicting the claim that every whitespace
run is collapsed to a single space. -/
theorem content_keeps_inner_whitespace_runs :
    (scrape_page fetch_ws "https://example.com".data).content
        = "a  b".data ∧
    ¬ ws_collapsed
        ((scrape_page fetch_ws "https://example.com".data).content) := by
  constructor
  · decide
  · decide

/-- C6 (amended): for a successful fetch, content is obtained by
stripping each visible text fragment of its surrounding whitespace,
dropping fragments that become empty, joining the survivors with single
spaces, and truncating to the first 5000 characters after joining;
whitespace inside a fragment is preserved, so the output is free of
whitespace runs exactly when each stripped fragment is. -/
theorem content_join_then_truncate (f : Fetch) (u : Str) (page : Page)
    (hf : f u = .ok page)
    (hcol : ∀ t ∈ page.texts, t.1 = false → ws_collapsed (py_strip t.2)) :
    ((scrape_page f u).content
        = (List.intercalate [' ']
            (((page.texts.filter (fun t => !t.1)).map
                (fun t => py_strip t.2)).filter
              (fun s => !s.isEmpty))).take 5000) ∧
    ws_collapsed ((scrape_page f u).content) := by
  have hc := scrape_page_content f u page hf
  constructor
  · rw [hc]
    rfl
  · rw [hc]
    exact ws_collapsed_take _ _ (get_text_collapsed page.texts hcol)

/-- Witness for C6 (amended): a concrete page with one internally
collapsed visible fragment and one script fragment. -/
theorem content_join_then_truncate_witness :
    ((scrape_page fetch_sample "https://example.com".data).content
        = (List.intercalate [' ']
            (((page_sample.texts.filter (fun t => !t.1)).map
                (fun t => py_strip t.2)).filter
              (fun s => !s.isEmpty))).take 5000) ∧
    ws_collapsed
      ((scrape_page fetch_sample "https://example.com".data).content) :=
  content_join_then_truncate fetch_sample "https://example.com".data
    page_sample rfl (by decide)

/-- Counterexample for C7: a document whose `<title>` element exists but
yields no string (an empty `<title></title>`) produces the parser's
`None` as the record's title — an absent-marker distinct from the
`"No Title"` sentinel the claim promises. -/
theorem empty_title_yields_none :
    (scrape_page fetch_empty_title "https://example.com".data).title
        = none ∧
    (scrape_page fetch_empty_title "https://example.com".data).title
      ≠ some "No Title".data := by
  constructor
  · decide
  · decide

/-- C7 (amended): for a successful fetch the title field is
`soup.title.string` whenever a `<title>` element exists (which is the
title text when the element has a single text child, and `None` when it
does not), and the sentinel `"No Title"` only when the document has no
`<title>` element at all. -/
theorem title_selection (f : Fetch) (u : Str) (page : Page)
    (hf : f u = .ok page) :
    (scrape_page f u).title
      = page.titleTag.getD (some "No Title".data) := by
  cases h : page.titleTag <;> simp [scrape_page, hf, h]

/-- Witness for C7 (amended): the empty-title page. -/
theorem title_selection_witness :
    (scrape_page fetch_empty_title "https://example.com".data).title
      = page_empty_title.titleTag.getD (some "No Title".data) :=
  title_selection fetch_empty_title "https://example.com".data
    page_empty_title rfl

/-- C8: for a successful fetch the links list is exactly the resolved
hrefs that pass `is_valid_url` (so hrefs resolving without a scheme or a
netloc are omitted and never reach the queue), every surviving link has
a non-empty scheme and netloc, and the concrete `mailto:`/`javascript:`
page yields no links at all. -/
theorem links_require_scheme_and_host (f : Fetch) (u : Str) (page : Page)
    (hf : f u = .ok page) :
    ((scrape_page f u).links
        = (page.hrefs.map (urljoin u)).filter is_valid_url) ∧
    ((scrape_page f u).links.all
        (fun l => !(urlparse l []).scheme.isEmpty &&
          !(urlparse l []).netloc.isEmpty) = true) ∧
    (scrape_page fetch_mailto "https://example.com".data).links = [] := by
  refine ⟨scrape_page_links f u page hf, ?_, by decide⟩
  rw [List.all_eq_true]
  intro l hl
  rw [scrape_page_links f u page hf] at hl
  have hv : is_valid_url l = true := List.of_mem_filter hl
  exact hv

/-- Witness for C8: the `mailto:`/`javascript:` page itself. -/
theorem links_require_scheme_and_host_witness :
    ((scrape_page fetch_mailto "https://example.com".data).links
        = (page_mailto.hrefs.map
            (urljoin "https://example.com".data)).filter is_valid_url) ∧
    ((scrape_page fetch_mailto "https://example.com".data).links.all
        (fun l => !(urlparse l []).scheme.isEmpty &&
          !(urlparse l []).netloc.isEmpty) = true) ∧
    (scrape_page fetch_mailto "https://example.com".data).links = [] :=
  links_require_scheme_and_host fetch_mailto "https://example.com".data
    page_mailto rfl

/-- C10: URL identity is exact string equality with no canonicalization:
a crawl whose seed page links to the trailing-slash variant and to a
fragment variant of the seed visits all three as distinct pages, each
producing its own record. -/
theorem urls_compared_as_exact_strings :
    ((process_queue fetch_c10 10 false "e".data
        ⟨["https://e/x".data], [], []⟩).1.scraped_data.map PageRecord.url
      = ["https://e/x".data, "https://e/x/".data, "https://e/x#f".data]) ∧
    ((process_queue fetch_c10 10 false "e".data
        ⟨["https://e/x".data], [], []⟩).1.scraped_data.map
        PageRecord.url).Nodup ∧
    ((process_queue fetch_c10 10 false "e".data
        ⟨["https://e/x".data], [], []⟩).1.visited
      = ["https://e/x".data, "https://e/x/".data, "https://e/x#f".data]) := by
  have h := process_queue_fuel_sound_map fetch_c10 10 false "e".data 10
    ⟨["https://e/x".data], [], []⟩
    (fun r => (r.1.scraped_data.map PageRecord.url, r.1.visited))
    (["https://e/x".data, "https://e/x/".data, "https://e/x#f".data],
     ["https://e/x".data, "https://e/x/".data, "https://e/x#f".data])
    (by decide)
  have h1 : (process_queue fetch_c10 10 false "e".data
      ⟨["https://e/x".data], [], []⟩).1.scraped_data.map PageRecord.url
      = ["https://e/x".data, "https://e/x/".data, "https://e/x#f".data] :=
    congrArg Prod.fst h
  have h2 : (process_queue fetch_c10 10 false "e".data
      ⟨["https://e/x".data], [], []⟩).1.visited
      = ["https://e/x".data, "https://e/x/".data, "https://e/x#f".data] :=
    congrArg Prod.snd h
  refine ⟨h1, ?_, h2⟩
  rw [h1]
  decide
